import Mathlib

/-!
Verification development for the pdf-manager repository.

The repository has two variants of the same tool:
  * the refactored package under pdf_manager/ (core/core.py, core/utils.py,
    budget/__init__.py, concat/__init__.py) — the reference variant, and
  * the legacy single-file variant joinpdf.py.

We embed both shallowly.  Filesystem paths are modelled as lists of path
components (pathlib is component based); the scanner sees the directory
tree as a flat list of files, each carrying its parsed content.  Floating
point values read from a media box are modelled as exact rationals; the
int(...) cast of Python is truncation toward zero, modelled with Int.tdiv.
Python exceptions are modelled with Except: an .error value is a raised
exception propagating out of the modelled call.
-/

deriving instance DecidableEq for Except

namespace PdfManager

/-- Closed enumeration of document types, from class PdfTypes in
pdf_manager/core/core.py. -/
inductive PdfTypes
  | A4
  | A4_inverted
  | slide
  | unknown
deriving DecidableEq

/-- Python exception values that the modelled code can raise. -/
inductive PyError
  | attributeError (msg : String)
  | typeError (msg : String)
  | valueError (msg : String)
  | indexError (msg : String)
  | pdfError (msg : String)
deriving DecidableEq

/-- One page of a PDF file: the upper-right corner of its media box, in
point units.  The code destructures the media box as _, _, b, a and only
uses b (upper x, the width) and a (upper y, the height). -/
structure PageDims where
  ux : ℚ
  uy : ℚ
deriving DecidableEq

/-- Pages written by the concatenation engine: a page copied from a source
document (identified by source path and page index) or a blank pad page. -/
inductive OutPage
  | src (path : List String) (idx : Nat)
  | blank
deriving DecidableEq

/-- Content of a file as the PDF library sees it.
  * unreadable: PdfFileReader.getNumPages raises PdfReadError;
  * readable: the parsed list of pages;
  * written: bytes produced by PdfFileWriter.write.  In every theorem below
    a written output is deleted before any rescan, so it is never re-parsed;
    the update_pages models below refuse it explicitly rather than guess
    dimensions for it. -/
inductive FileContent
  | unreadable (msg : String)
  | readable (pages : List PageDims)
  | written (out : List OutPage)
deriving DecidableEq

/-- A file of the scanned directory tree: absolute path (as components)
plus its content. -/
structure FsFile where
  path : List String
  content : FileContent
deriving DecidableEq

/-- The PDF dataclass after __post_init__ ran successfully: path plus the
derived page count and dimensions in centimeters. -/
structure PDF where
  filepath : List String
  pages : Nat
  height : Int
  width : Int
deriving DecidableEq

/-- Truncation toward zero of the exact rational n / d (d a positive
natural), the meaning of the Python int(...) cast on a float. -/
def truncDiv (n : Int) (d : Nat) : Int := Int.tdiv n d

/-- int(float(v) * 2.54 / 72): the conversion from points to centimeters,
evaluated exactly: v * 254 / 7200 truncated toward zero.  For v = num/den
this is truncDiv (num * 254) (den * 7200). -/
def cmOfPoints (v : ℚ) : Int := truncDiv (v.num * 254) (v.den * 7200)

/-- The rounding rule as the spec words it: round(value * 2.54 / 72) with
rounding mode truncation toward zero, written directly over the rational
value 2.54 / 72 = 254/100/72. -/
def spec_round_cm (v : ℚ) : Int :=
  if v * (254 / 100) / 72 < 0 then -⌊-(v * (254 / 100) / 72)⌋ else ⌊v * (254 / 100) / 72⌋

/-- Posix rendering of an absolute component path, as Path.as_posix. -/
def posixStr (p : List String) : String := "/" ++ String.intercalate "/" p

/-- os.path.basename of a file path. -/
def basenameStr (p : List String) : String := p.getLastD ""

/-- Substring test on raw character lists: does the first list occur at the
head of the second? -/
def headMatch : List Char → List Char → Bool
  | [], _ => true
  | _ :: _, [] => false
  | a :: as, b :: bs => a == b && headMatch as bs

/-- Substring occurrence test on character lists (the Python in operator
on strings). -/
def hasSub (n : List Char) : List Char → Bool
  | [] => headMatch n []
  | b :: bs => headMatch n (b :: bs) || hasSub n bs

/-- needle in hay, for Python strings. -/
def containsSub (needle hay : String) : Bool := hasSub needle.toList hay.toList

/-- Suffix test on Python strings: str.endswith. -/
def tailMatch (suf s : String) : Bool :=
  headMatch suf.toList.reverse s.toList.reverse

/-- Component-list prefix test: is the first path an initial segment of the
second? -/
def leadsWith : List String → List String → Bool
  | [], _ => true
  | _ :: _, [] => false
  | a :: as, b :: bs => a == b && leadsWith as bs

namespace Core

/- pdf_manager/core/core.py -/

/-- PDF.is_A4: 28 <= height <= 30 and 20 <= width <= 22. -/
def is_A4 (height width : Int) : Bool :=
  decide (28 ≤ height) && decide (height ≤ 30) && decide (20 ≤ width) && decide (width ≤ 22)

/-- PDF.is_A4_inverted: 28 <= width <= 30 and 20 <= height <= 22. -/
def is_A4_inverted (height width : Int) : Bool :=
  decide (28 ≤ width) && decide (width ≤ 30) && decide (20 ≤ height) && decide (height ≤ 22)

/-- PDF.is_slide: (24 <= width <= 26 and 18 <= height <= 20) or
(32 <= width <= 34 and 18 <= height <= 20). -/
def is_slide (height width : Int) : Bool :=
  (decide (24 ≤ width) && decide (width ≤ 26) && decide (18 ≤ height) && decide (height ≤ 20)) ||
  (decide (32 ≤ width) && decide (width ≤ 34) && decide (18 ≤ height) && decide (height ≤ 20))

/-- PDF.get_type of core/core.py.  The A4-inverted branch reads the
attribute PdfTypes.A4_invertedc-with-a-stray-cedilla, which does not exist
on the enum, so at runtime that branch raises AttributeError instead of
returning a value. -/
def get_type (height width : Int) : Except PyError PdfTypes :=
  if is_A4 height width then .ok .A4
  else if is_A4_inverted height width then
    .error (.attributeError "type object PdfTypes has no attribute A4_inverted-stray-char")
  else if is_slide height width then .ok .slide
  else .ok .unknown

/-- PDF.update_pages of core/core.py (strict mode), as a function of the
file content, returning (pages, height, width).
  * On PdfReadError the handler first runs print(Fore.RED + self.filepath,
    ...); self.filepath is a pathlib.Path here, and str + Path raises
    TypeError, so the recovery assignments below the print never run and
    the TypeError propagates.
  * Otherwise every page of the document is converted; the distinct rounded
    heights and widths are collected (a Python set, modelled by dedup), and
    if either collection does not have exactly one member a PdfError is
    raised. -/
def update_pages : FileContent → Except PyError (Nat × Int × Int)
  | .unreadable _ =>
      .error (.typeError "can only concatenate str (not PosixPath) to str")
  | .written _ =>
      .error (.pdfError "re-parsing a written concat output is outside this model")
  | .readable pages =>
      if (pages.map (fun p => cmOfPoints p.uy)).dedup.length ≠ 1 then
        .error (.pdfError "Difference in heights")
      else if (pages.map (fun p => cmOfPoints p.ux)).dedup.length ≠ 1 then
        .error (.pdfError "Difference in widths")
      else
        .ok (pages.length, (pages.map (fun p => cmOfPoints p.uy)).dedup.headI,
          (pages.map (fun p => cmOfPoints p.ux)).dedup.headI)

end Core

namespace Joinpdf

/- joinpdf.py, the legacy single-file variant -/

/-- PDF.is_A4 of joinpdf.py. -/
def is_A4 (height width : Int) : Bool :=
  decide (28 ≤ height) && decide (height ≤ 30) && decide (20 ≤ width) && decide (width ≤ 22)

/-- PDF.is_A4_inverted of joinpdf.py. -/
def is_A4_inverted (height width : Int) : Bool :=
  decide (28 ≤ width) && decide (width ≤ 30) && decide (20 ≤ height) && decide (height ≤ 22)

/-- PDF.is_slide of joinpdf.py. -/
def is_slide (height width : Int) : Bool :=
  (decide (24 ≤ width) && decide (width ≤ 26) && decide (18 ≤ height) && decide (height ≤ 20)) ||
  (decide (32 ≤ width) && decide (width ≤ 34) && decide (18 ≤ height) && decide (height ≤ 20))

/-- PDF.get_type of joinpdf.py, returning the type as an open string. -/
def get_type (height width : Int) : String :=
  if is_A4 height width then "A4"
  else if is_A4_inverted height width then "A4 inverted"
  else if is_slide height width then "slide"
  else "unknown"

/-- PDF.update_pages of joinpdf.py (relaxed mode): on PdfReadError it
prints the diagnostic (self.filename is a str here, so the print succeeds)
and recovers with pages = 0, height = width = -1; otherwise it reads only
page 0.  reader.getPage(0) on a zero-page document raises IndexError. -/
def update_pages : FileContent → Except PyError (Nat × Int × Int)
  | .unreadable _ => .ok (0, -1, -1)
  | .written _ =>
      .error (.pdfError "re-parsing a written concat output is outside this model")
  | .readable [] => .error (.indexError "sequence index out of range")
  | .readable (p :: rest) =>
      .ok ((p :: rest).length, cmOfPoints p.uy, cmOfPoints p.ux)

end Joinpdf

/-! Theorems for claims C1 and C5. -/

/-- Claim C1 (code bug), evaluated on the code.  The classifier is a pure
function of (heightCm, widthCm) tried in the order A4, A4Inverted, Slide,
Unknown.  The A4 range and the unreadable (-1, -1) case behave as claimed
in both variants, but for every document in the swapped (A4-inverted)
ranges the core variant raises AttributeError — the corrupted enum member
name PdfTypes.A4_inverted-with-stray-character — instead of returning the
A4-inverted type; only the legacy joinpdf variant returns the inverted
label. -/
theorem claim_C1 :
    (∀ h w : Int, 28 ≤ h → h ≤ 30 → 20 ≤ w → w ≤ 22 →
      Core.get_type h w = .ok .A4 ∧ Joinpdf.get_type h w = "A4") ∧
    (∀ h w : Int, 28 ≤ w → w ≤ 30 → 20 ≤ h → h ≤ 22 →
      (∃ msg, Core.get_type h w = .error (.attributeError msg)) ∧
      Joinpdf.get_type h w = "A4 inverted") ∧
    Core.get_type (-1) (-1) = .ok .unknown ∧
    Joinpdf.get_type (-1) (-1) = "unknown" := by
  refine ⟨?_, ?_, by decide, by decide⟩
  · intro h w h1 h2 h3 h4
    have hA4 : Core.is_A4 h w = true := by
      simp [Core.is_A4, h1, h2, h3, h4]
    have hA4j : Joinpdf.is_A4 h w = true := by
      simp [Joinpdf.is_A4, h1, h2, h3, h4]
    exact ⟨by simp [Core.get_type, hA4], by simp [Joinpdf.get_type, hA4j]⟩
  · intro h w h1 h2 h3 h4
    have hno : (28 ≤ h) = False := by
      simp only [eq_iff_iff, iff_false]
      omega
    have hA4 : Core.is_A4 h w = false := by
      simp [Core.is_A4, hno]
    have hA4j : Joinpdf.is_A4 h w = false := by
      simp [Joinpdf.is_A4, hno]
    have hInv : Core.is_A4_inverted h w = true := by
      simp [Core.is_A4_inverted, h1, h2, h3, h4]
    have hInvj : Joinpdf.is_A4_inverted h w = true := by
      simp [Joinpdf.is_A4_inverted, h1, h2, h3, h4]
    refine ⟨⟨"type object PdfTypes has no attribute A4_inverted-stray-char", ?_⟩, ?_⟩
    · simp [Core.get_type, hA4, hInv]
    · simp [Joinpdf.get_type, hA4j, hInvj]

/-- Witness for claim C1 at the concrete dimensions 29 x 21 (A4) and
21 x 29 (inverted A4). -/
theorem claim_C1_witness :
    (Core.get_type 29 21 = .ok .A4 ∧ Joinpdf.get_type 29 21 = "A4") ∧
    ((∃ msg, Core.get_type 21 29 = .error (.attributeError msg)) ∧
      Joinpdf.get_type 21 29 = "A4 inverted") :=
  ⟨claim_C1.1 29 21 (by decide) (by decide) (by decide) (by decide),
   claim_C1.2.1 21 29 (by decide) (by decide) (by decide) (by decide)⟩

/-- Claim C5 (code bug), evaluated on the code.  On a read failure the
legacy joinpdf variant recovers locally as claimed: it prints the
diagnostic and sets pageCount = 0, heightCm = widthCm = -1.  The core
variant attempts the same recovery, but its diagnostic print concatenates
a str with a pathlib.Path and raises TypeError before the recovery
assignments run, so the exception propagates and the fields are never
set. -/
theorem claim_C5 :
    Joinpdf.update_pages (.unreadable "EOF marker not found") = .ok (0, -1, -1) ∧
    Core.update_pages (.unreadable "EOF marker not found") =
      .error (.typeError "can only concatenate str (not PosixPath) to str") := by
  exact ⟨rfl, rfl⟩

namespace Utils

/- pdf_manager/core/utils.py -/

/-- PDF construction: the dataclass __post_init__ runs update_pages; a
raised exception propagates out of the constructor. -/
def construct (f : FsFile) : Except PyError PDF :=
  match Core.update_pages f.content with
  | .error e => .error e
  | .ok (n, h, w) => .ok ⟨f.path, n, h, w⟩

/-- get_file_list of core/utils.py: Path(path).absolute().rglob of
star-dot-pdf, then the optional regex exclusion (pattern.search against
the posix path keeps a file only when it returns None).  The regex engine
is modelled as an abstract predicate on the rendered path. -/
def get_file_list (root : List String) (exclude : Option (String → Bool))
    (fs : List FsFile) : List FsFile :=
  match exclude with
  | none => fs.filter (fun f => leadsWith root f.path && tailMatch ".pdf" (basenameStr f.path))
  | some pat =>
      (fs.filter (fun f => leadsWith root f.path && tailMatch ".pdf" (basenameStr f.path))).filter
        (fun f => pat (posixStr f.path) == false)

/-- The filtered filename list built inside get_pdfs: every path containing
the literal substring compact_pdf.pdf is dropped. -/
def candidates (root : List String) (exclude : Option (String → Bool))
    (fs : List FsFile) : List FsFile :=
  (get_file_list root exclude fs).filter
    (fun f => !containsSub "compact_pdf.pdf" (posixStr f.path))

/-- The comprehension pdfs = [PDF(f) for f in filenames]: constructs the
documents eagerly in order; the first raised exception propagates and the
remaining files are not processed. -/
def buildPdfs : List FsFile → Except PyError (List PDF)
  | [] => .ok []
  | f :: rest =>
    match construct f with
    | .error e => .error e
    | .ok p =>
      match buildPdfs rest with
      | .error e => .error e
      | .ok ps => .ok (p :: ps)

/-- get_pdfs of core/utils.py. -/
def get_pdfs (root : List String) (exclude : Option (String → Bool))
    (fs : List FsFile) : Except PyError (List PDF) :=
  buildPdfs (candidates root exclude fs)

/-- Path.relative_to: strip the root prefix, raising ValueError when the
path is not below the root. -/
def relative_to (root p : List String) : Except PyError (List String) :=
  if leadsWith root p then .ok (p.drop root.length)
  else .error (.valueError "path is not relative to root")

/-- df.index.map over relative_to: the first ValueError propagates.  Each
relative path is rendered with forward slashes and, being relative, with
no leading slash. -/
def relLabels (root : List String) : List (List String) → Except PyError (List String)
  | [] => .ok []
  | p :: rest =>
    match relative_to root p with
    | .error e => .error e
    | .ok r =>
      match relLabels root rest with
      | .error e => .error e
      | .ok ls => .ok (String.intercalate "/" r :: ls)

/-- make_names_relative of core/utils.py, acting on the index of the
budget dataframe: with exactly one row the label is a slash plus the base
filename; otherwise each label is the path made relative to the root. -/
def make_names_relative (index : List (List String)) (root : List String) :
    Except PyError (List String) :=
  if index.length == 1 then .ok (index.map (fun p => "/" ++ basenameStr p))
  else relLabels root index

end Utils

/-! Helper lemmas about the scanner and path helpers. -/

theorem leadsWith_append (a b : List String) : leadsWith a (a ++ b) = true := by
  induction a with
  | nil => rfl
  | cons x xs ih => simp [leadsWith, ih]

theorem buildPdfs_error (l : List FsFile) (f : FsFile) (hf : f ∈ l)
    (e0 : PyError) (hce : Utils.construct f = .error e0) :
    ∃ e, Utils.buildPdfs l = .error e := by
  induction l with
  | nil => cases hf
  | cons g rest ih =>
    rcases List.mem_cons.mp hf with heq | htail
    · subst heq
      exact ⟨e0, by simp [Utils.buildPdfs, hce]⟩
    · cases hcg : Utils.construct g with
      | error e1 => exact ⟨e1, by simp [Utils.buildPdfs, hcg]⟩
      | ok p =>
        obtain ⟨e, he⟩ := ih htail
        exact ⟨e, by simp [Utils.buildPdfs, hcg, he]⟩

theorem relLabels_append (root : List String) (rests : List (List String)) :
    Utils.relLabels root (rests.map (fun r => root ++ r)) =
      .ok (rests.map (fun r => String.intercalate "/" r)) := by
  induction rests with
  | nil => rfl
  | cons r rs ih =>
    simp [Utils.relLabels, Utils.relative_to, leadsWith_append, List.drop_left, ih]

/-! Truncation and the rounding rule of the spec. -/

theorem truncDiv_eq_trunc (n : Int) (d : Nat) (hd : 0 < d) :
    truncDiv n d =
      (if ((n : ℚ) / (d : ℚ)) < 0 then -⌊-((n : ℚ) / (d : ℚ))⌋
       else ⌊(n : ℚ) / (d : ℚ)⌋) := by
  have hdq : (0 : ℚ) < (d : ℚ) := by exact_mod_cast hd
  rcases le_or_lt 0 n with hn | hn
  · have hnq : (0 : ℚ) ≤ (n : ℚ) := by exact_mod_cast hn
    rw [if_neg (not_lt.mpr (div_nonneg hnq hdq.le)), Rat.floor_intCast_div_natCast]
    exact Int.tdiv_eq_ediv hn (by positivity)
  · have hnq : (n : ℚ) < 0 := by exact_mod_cast hn
    rw [if_pos (div_neg_of_neg_of_pos hnq hdq)]
    have h1 : -((n : ℚ) / (d : ℚ)) = ((-n : ℤ) : ℚ) / (d : ℚ) := by
      push_cast
      ring
    rw [h1, Rat.floor_intCast_div_natCast]
    have h2 : Int.tdiv n d = -(Int.tdiv (-n) d) := by
      rw [Int.neg_tdiv]
      ring
    rw [truncDiv, h2, Int.tdiv_eq_ediv (by omega) (by positivity)]

theorem cmOfPoints_eq_spec (v : ℚ) : cmOfPoints v = spec_round_cm v := by
  have hd : 0 < v.den * 7200 := Nat.mul_pos v.den_pos (by norm_num)
  have key := truncDiv_eq_trunc (v.num * 254) (v.den * 7200) hd
  have hval : ((v.num * 254 : ℤ) : ℚ) / ((v.den * 7200 : ℕ) : ℚ) = v * (254 / 100) / 72 := by
    push_cast
    rw [← div_mul_div_comm, Rat.num_div_den]
    ring
  rw [cmOfPoints, key, hval, spec_round_cm]

/-- Claim C9 (confirmed): for every readable document accepted by the
strict geometry extraction, heightCm and widthCm equal the spec rounding
rule round(value * 2.54 / 72) with truncation toward zero, applied
independently to the upper y (height) and upper x (width) media-box
values of each page. -/
theorem claim_C9 (pages : List PageDims) (n : Nat) (h w : Int)
    (hok : Core.update_pages (.readable pages) = .ok (n, h, w)) :
    n = pages.length ∧
    ∀ p ∈ pages, h = spec_round_cm p.uy ∧ w = spec_round_cm p.ux := by
  rw [Core.update_pages] at hok
  split at hok
  · exact absurd hok (by simp)
  · split at hok
    · exact absurd hok (by simp)
    · rename_i hH hW
      obtain ⟨a, ha⟩ := List.length_eq_one.mp (not_ne_iff.mp hH)
      obtain ⟨b, hb⟩ := List.length_eq_one.mp (not_ne_iff.mp hW)
      simp only [Except.ok.injEq, Prod.mk.injEq] at hok
      obtain ⟨hn, hh, hw⟩ := hok
      refine ⟨hn.symm, ?_⟩
      intro p hp
      have hmemH : cmOfPoints p.uy ∈ (pages.map (fun p => cmOfPoints p.uy)).dedup :=
        List.mem_dedup.mpr (List.mem_map_of_mem _ hp)
      have hmemW : cmOfPoints p.ux ∈ (pages.map (fun p => cmOfPoints p.ux)).dedup :=
        List.mem_dedup.mpr (List.mem_map_of_mem _ hp)
      rw [ha] at hmemH
      rw [hb] at hmemW
      simp only [List.mem_singleton] at hmemH hmemW
      constructor
      · rw [← hh, ha, ← cmOfPoints_eq_spec, ← hmemH]
        rfl
      · rw [← hw, hb, ← cmOfPoints_eq_spec, ← hmemW]
        rfl

/-- Witness for claim C9: a one-page document of 595 x 842 points (A4)
gives 20 x 29 centimeters. -/
theorem claim_C9_witness :
    Core.update_pages (.readable [⟨595, 842⟩]) = .ok (1, 29, 20) ∧
    (1 = [(⟨595, 842⟩ : PageDims)].length ∧
      ∀ p ∈ [(⟨595, 842⟩ : PageDims)], 29 = spec_round_cm p.uy ∧ 20 = spec_round_cm p.ux) :=
  ⟨by decide, claim_C9 [⟨595, 842⟩] 1 29 20 (by decide)⟩

/-- A scan fixture for claim C3: the first document has two pages that
disagree on rounded height (842 points gives 29 cm, 1000 points gives
35 cm); a second, consistent document follows it in scan order. -/
def fsInconsistent : List FsFile :=
  [⟨["r", "bad.pdf"], .readable [⟨595, 842⟩, ⟨595, 1000⟩]⟩,
   ⟨["r", "good.pdf"], .readable [⟨595, 842⟩]⟩]

/-- Counterexample to claim C3: on a scan whose first document has
inconsistent page heights, get_pdfs does not surface a per-document error
and continue — the PdfError raised inside PDF construction propagates out
of get_pdfs, so the scan aborts and the second (consistent) document is
never returned. -/
theorem claim_C3_counterexample :
    Utils.get_pdfs ["r"] none fsInconsistent = .error (.pdfError "Difference in heights") := by
  decide

/-- Claim C3 as amended: in strict mode a document whose pages disagree on
rounded height or width makes update_pages raise PdfError; nothing catches
it, so whenever such a document is in the scanned set the whole get_pdfs
call errors out — the failure propagates and aborts the scan instead of
being surfaced per document. -/
theorem claim_C3 (root : List String) (exclude : Option (String → Bool))
    (fs : List FsFile) (f : FsFile) (hmem : f ∈ Utils.candidates root exclude fs)
    (pages : List PageDims) (hcontent : f.content = .readable pages)
    (hbad : (pages.map (fun p => cmOfPoints p.uy)).dedup.length ≠ 1 ∨
            (pages.map (fun p => cmOfPoints p.ux)).dedup.length ≠ 1) :
    ∃ e, Utils.get_pdfs root exclude fs = .error e := by
  have hcf : ∃ e0, Utils.construct f = .error e0 := by
    rw [Utils.construct, hcontent]
    by_cases hh : (pages.map (fun p => cmOfPoints p.uy)).dedup.length ≠ 1
    · exact ⟨.pdfError "Difference in heights", by rw [Core.update_pages]; simp [hh]⟩
    · have hw : (pages.map (fun p => cmOfPoints p.ux)).dedup.length ≠ 1 := by tauto
      exact ⟨.pdfError "Difference in widths", by rw [Core.update_pages]; simp [hh, hw]⟩
  obtain ⟨e0, he0⟩ := hcf
  exact buildPdfs_error _ f hmem e0 he0

/-- Witness for claim C3 at the concrete fixture. -/
theorem claim_C3_witness :
    (⟨["r", "bad.pdf"], .readable [⟨595, 842⟩, ⟨595, 1000⟩]⟩ : FsFile) ∈
        Utils.candidates ["r"] none fsInconsistent ∧
    ∃ e, Utils.get_pdfs ["r"] none fsInconsistent = .error e :=
  ⟨by decide,
   claim_C3 ["r"] none fsInconsistent ⟨["r", "bad.pdf"], .readable [⟨595, 842⟩, ⟨595, 1000⟩]⟩
     (by decide) [⟨595, 842⟩, ⟨595, 1000⟩] rfl (by decide)⟩

/-- Counterexample to claim C4: for the two inputs /root/a/b.pdf and
/root/c.pdf with root /root, the multi-path branch of make_names_relative
produces the relative labels a/b.pdf and c.pdf with no leading slash, not
the slash-prefixed /a/b.pdf and /c.pdf the claim states. -/
theorem claim_C4_counterexample :
    Utils.make_names_relative [["root", "a", "b.pdf"], ["root", "c.pdf"]] ["root"] =
      .ok ["a/b.pdf", "c.pdf"] ∧
    (["a/b.pdf", "c.pdf"] : List String) ≠ ["/a/b.pdf", "/c.pdf"] := by
  constructor
  · decide
  · decide

/-- Claim C4 as amended: with exactly one path the label is a slash plus
the base filename, as claimed; with two or more paths each label is the
remainder of the path after stripping the scan root, joined with forward
slashes but not prefixed with a slash. -/
theorem claim_C4 :
    (∀ (root p : List String),
      Utils.make_names_relative [p] root = .ok ["/" ++ basenameStr p]) ∧
    (∀ (root : List String) (rests : List (List String)), 2 ≤ rests.length →
      Utils.make_names_relative (rests.map (fun r => root ++ r)) root =
        .ok (rests.map (fun r => String.intercalate "/" r))) := by
  constructor
  · intro root p
    simp [Utils.make_names_relative]
  · intro root rests hlen
    have hne : ((rests.map (fun r => root ++ r)).length == 1) = false := by
      rw [beq_eq_false_iff_ne]
      simp only [List.length_map]
      omega
    rw [Utils.make_names_relative, hne]
    simpa using relLabels_append root rests

namespace Concat

/- pdf_manager/concat/__init__.py -/

/-- The pages the loop body appends to the PdfFileWriter for one accepted
document: every source page in order, then one blank page when the page
count is odd. -/
def segment (p : PDF) : List OutPage :=
  (List.range p.pages).map (fun i => OutPage.src p.filepath i) ++
    (if p.pages % 2 ≠ 0 then [OutPage.blank] else [])

/-- The loop of _concat_pdfs: classify each scanned document; a non-A4
document goes to the error list; an A4 document contributes its pages plus
the optional blank pad to the accumulating output and goes to the success
list.  The corrupted enum member makes get_type raise on A4-inverted
documents, which propagates out of the loop. -/
def concatLoop : List PDF → Except PyError (List OutPage × List PDF × List PDF)
  | [] => .ok ([], [], [])
  | pdf :: rest =>
    match Core.get_type pdf.height pdf.width with
    | .error e => .error e
    | .ok t =>
      if t ≠ PdfTypes.A4 then
        match concatLoop rest with
        | .error e => .error e
        | .ok (out, succ, errs) => .ok (out, succ, pdf :: errs)
      else
        match concatLoop rest with
        | .error e => .error e
        | .ok (out, succ, errs) => .ok (segment pdf ++ out, pdf :: succ, errs)

/-- The underscore-prefixed concat_pdfs of concat/__init__.py: scan, run
the loop, then write the accumulated output once to the output path
(open(output, wb) overwrites).  Returns the new state of the directory
tree together with the success and error lists. -/
def concatWrite (root outPath : List String) (exclude : Option (String → Bool))
    (fs : List FsFile) : Except PyError (List FsFile × List PDF × List PDF) :=
  match Utils.get_pdfs root exclude fs with
  | .error e => .error e
  | .ok pdfs =>
    match concatLoop pdfs with
    | .error e => .error e
    | .ok (out, succ, errs) =>
      .ok (fs.filter (fun f => f.path != outPath) ++ [⟨outPath, .written out⟩], succ, errs)

/-- safe_delete of core/utils.py: remove the file at the path when it
exists; silence when it does not. -/
def safe_delete (outPath : List String) (fs : List FsFile) : List FsFile :=
  fs.filter (fun f => f.path != outPath)

/-- concat_pdfs of concat/__init__.py (the interface): first safe_delete
the output path, then scan and write. -/
def concat_pdfs (root outPath : List String) (exclude : Option (String → Bool))
    (fs : List FsFile) : Except PyError (List FsFile × List PDF × List PDF) :=
  concatWrite root outPath exclude (safe_delete outPath fs)

/-- Documents the loop accepts: classified A4 without an exception. -/
def isA4doc (p : PDF) : Bool := decide (Core.get_type p.height p.width = .ok PdfTypes.A4)

end Concat

theorem segment_total_length (l : List PDF) :
    (l.flatMap Concat.segment).length =
      (l.map (fun p => p.pages)).sum + (l.filter (fun p => p.pages % 2 = 1)).length := by
  induction l with
  | nil => rfl
  | cons p rest ih =>
    by_cases hp : p.pages % 2 = 1
    · have hne : p.pages % 2 ≠ 0 := by omega
      simp [Concat.segment, List.filter_cons, hp, hne, ih]
      omega
    · have hz : p.pages % 2 = 0 := by omega
      simp [Concat.segment, List.filter_cons, hp, hz, ih]
      omega

/-- Claim C2 (confirmed): whenever the concatenation loop finishes, the
accumulated output is exactly the concatenation, in scan order, of each
A4-classified document's pages followed by its blank pad when its page
count is odd; hence the written page count is the sum of the A4 page
counts plus one for each odd A4 document.  Non-A4 documents contribute
nothing and are returned as errors. -/
theorem claim_C2 (pdfs : List PDF) (out : List OutPage) (succ errs : List PDF)
    (hok : Concat.concatLoop pdfs = .ok (out, succ, errs)) :
    out = (pdfs.filter Concat.isA4doc).flatMap Concat.segment ∧
    out.length = ((pdfs.filter Concat.isA4doc).map (fun p => p.pages)).sum +
      ((pdfs.filter Concat.isA4doc).filter (fun p => p.pages % 2 = 1)).length ∧
    succ = pdfs.filter Concat.isA4doc ∧
    errs = pdfs.filter (fun p => !Concat.isA4doc p) := by
  suffices hmain : out = (pdfs.filter Concat.isA4doc).flatMap Concat.segment ∧
      succ = pdfs.filter Concat.isA4doc ∧
      errs = pdfs.filter (fun p => !Concat.isA4doc p) by
    exact ⟨hmain.1, by rw [hmain.1]; exact segment_total_length _, hmain.2.1, hmain.2.2⟩
  induction pdfs generalizing out succ errs with
  | nil =>
    simp only [Concat.concatLoop, Except.ok.injEq, Prod.mk.injEq] at hok
    obtain ⟨h1, h2, h3⟩ := hok
    simp [← h1, ← h2, ← h3]
  | cons p rest ih =>
    rw [Concat.concatLoop] at hok
    cases hg : Core.get_type p.height p.width with
    | error e => rw [hg] at hok; exact absurd hok (by simp)
    | ok t =>
      rw [hg] at hok
      by_cases ht : t = PdfTypes.A4
      · subst ht
        have hA4 : Concat.isA4doc p = true := by
          simp [Concat.isA4doc, hg]
        simp only [ne_eq, not_true_eq_false, if_false, ite_false] at hok
        cases hrec : Concat.concatLoop rest with
        | error e => rw [hrec] at hok; exact absurd hok (by simp)
        | ok r =>
          obtain ⟨o, s, er⟩ := r
          rw [hrec] at hok
          simp only [Except.ok.injEq, Prod.mk.injEq] at hok
          obtain ⟨h1, h2, h3⟩ := hok
          obtain ⟨ih1, ih2, ih3⟩ := ih o s er hrec
          subst h1 h2 h3
          simp [List.filter_cons, hA4, ih1, ih2, ih3]
      · have hA4 : Concat.isA4doc p = false := by
          simp only [Concat.isA4doc, hg, decide_eq_false_iff_not]
          intro hcon
          exact ht (by injection hcon)
        simp only [ne_eq, ht, not_false_eq_true, if_true, ite_true] at hok
        cases hrec : Concat.concatLoop rest with
        | error e => rw [hrec] at hok; exact absurd hok (by simp)
        | ok r =>
          obtain ⟨o, s, er⟩ := r
          rw [hrec] at hok
          simp only [Except.ok.injEq, Prod.mk.injEq] at hok
          obtain ⟨h1, h2, h3⟩ := hok
          obtain ⟨ih1, ih2, ih3⟩ := ih o s er hrec
          subst h1 h2 h3
          simp [List.filter_cons, hA4, ih1, ih2, ih3]

/-- Witness for claim C2: one 3-page A4 document followed by one 4-page
slide document; the output is the three A4 pages plus one blank pad. -/
theorem claim_C2_witness :
    Concat.concatLoop [⟨["r", "a.pdf"], 3, 29, 21⟩, ⟨["r", "s.pdf"], 4, 19, 25⟩] =
      .ok ([.src ["r", "a.pdf"] 0, .src ["r", "a.pdf"] 1, .src ["r", "a.pdf"] 2, .blank],
        [⟨["r", "a.pdf"], 3, 29, 21⟩], [⟨["r", "s.pdf"], 4, 19, 25⟩]) ∧
    ([.src ["r", "a.pdf"] 0, .src ["r", "a.pdf"] 1, .src ["r", "a.pdf"] 2,
        (.blank : OutPage)].length =
      (([⟨["r", "a.pdf"], 3, 29, 21⟩, ⟨["r", "s.pdf"], 4, 19, 25⟩].filter
          Concat.isA4doc).map (fun p => p.pages)).sum +
      ((([⟨["r", "a.pdf"], 3, 29, 21⟩,
          ⟨["r", "s.pdf"], 4, 19, 25⟩] : List PDF).filter Concat.isA4doc).filter
          (fun p => p.pages % 2 = 1)).length) :=
  ⟨by decide,
   (claim_C2 [⟨["r", "a.pdf"], 3, 29, 21⟩, ⟨["r", "s.pdf"], 4, 19, 25⟩]
     [.src ["r", "a.pdf"] 0, .src ["r", "a.pdf"] 1, .src ["r", "a.pdf"] 2, .blank]
     [⟨["r", "a.pdf"], 3, 29, 21⟩] [⟨["r", "s.pdf"], 4, 19, 25⟩] (by decide)).2.1⟩

theorem filter_path_idem (outPath : List String) (l : List FsFile) :
    ((l.filter (fun f => f.path != outPath)).filter (fun f => f.path != outPath)) =
      l.filter (fun f => f.path != outPath) := by
  simp

/-- Claim C7 (confirmed): concatenation is idempotent on the directory
tree.  A successful run deletes any previous output before scanning and
writes the output once at the end, so running it again with the same
arguments scans exactly the same input set and reproduces the same
output file, success list and error list — the previous output is never
re-ingested or accumulated. -/
theorem claim_C7 (root outPath : List String) (exclude : Option (String → Bool))
    (fs fs1 : List FsFile) (succ errs : List PDF)
    (h : Concat.concat_pdfs root outPath exclude fs = .ok (fs1, succ, errs)) :
    Concat.concat_pdfs root outPath exclude fs1 = .ok (fs1, succ, errs) := by
  simp only [Concat.concat_pdfs, Concat.concatWrite, Concat.safe_delete] at h ⊢
  split at h
  · exact absurd h (by simp)
  · rename_i pdfs hscan
    split at h
    · exact absurd h (by simp)
    · rename_i r out s e hloop
      simp only [Except.ok.injEq, Prod.mk.injEq] at h
      obtain ⟨hfs1, hsucc, herrs⟩ := h
      rw [filter_path_idem] at hfs1
      have hdel : fs1.filter (fun f => f.path != outPath) =
          fs.filter (fun f => f.path != outPath) := by
        rw [← hfs1]
        simp [List.filter_append, filter_path_idem]
      rw [hdel]
      simp [hscan, hloop, filter_path_idem, hfs1, hsucc, herrs]

/-- Witness for claim C7: one A4 document, output written to the default
compact_pdf.pdf path under the root. -/
theorem claim_C7_witness :
    Concat.concat_pdfs ["r"] ["r", "compact_pdf.pdf"] none
        [⟨["r", "a.pdf"], .readable [⟨595, 842⟩]⟩] =
      .ok ([⟨["r", "a.pdf"], .readable [⟨595, 842⟩]⟩,
            ⟨["r", "compact_pdf.pdf"], .written [.src ["r", "a.pdf"] 0, .blank]⟩],
           [⟨["r", "a.pdf"], 1, 29, 20⟩], []) ∧
    Concat.concat_pdfs ["r"] ["r", "compact_pdf.pdf"] none
        [⟨["r", "a.pdf"], .readable [⟨595, 842⟩]⟩,
         ⟨["r", "compact_pdf.pdf"], .written [.src ["r", "a.pdf"] 0, .blank]⟩] =
      .ok ([⟨["r", "a.pdf"], .readable [⟨595, 842⟩]⟩,
            ⟨["r", "compact_pdf.pdf"], .written [.src ["r", "a.pdf"] 0, .blank]⟩],
           [⟨["r", "a.pdf"], 1, 29, 20⟩], []) :=
  ⟨by decide,
   claim_C7 ["r"] ["r", "compact_pdf.pdf"] none
     [⟨["r", "a.pdf"], .readable [⟨595, 842⟩]⟩]
     [⟨["r", "a.pdf"], .readable [⟨595, 842⟩]⟩,
      ⟨["r", "compact_pdf.pdf"], .written [.src ["r", "a.pdf"] 0, .blank]⟩]
     [⟨["r", "a.pdf"], 1, 29, 20⟩] [] (by decide)⟩

namespace Budget

/- pdf_manager/budget/__init__.py -/

/-- df.loc with an index key: replace the existing row in place when the
key is already present in the index, append a new row otherwise. -/
def upsert (rows : List (List String × Nat × ℚ)) (key : List String) (v : Nat × ℚ) :
    List (List String × Nat × ℚ) :=
  if rows.any (fun r => r.1 == key) then
    rows.map (fun r => if r.1 == key then (key, v) else r)
  else rows ++ [(key, v)]

/-- The loop of the budget builder over the scanned documents: a non-A4
document goes to the error list; an A4 document gets the row
(pages, pages * price_per_sheet).  The corrupted enum member makes
get_type raise on A4-inverted documents, which propagates. -/
def budgetLoop (price : ℚ) :
    List PDF → List (List String × Nat × ℚ) × List PDF →
      Except PyError (List (List String × Nat × ℚ) × List PDF)
  | [], acc => .ok acc
  | pdf :: rest, acc =>
    match Core.get_type pdf.height pdf.width with
    | .error e => .error e
    | .ok t =>
      if t ≠ PdfTypes.A4 then budgetLoop price rest (acc.1, acc.2 ++ [pdf])
      else budgetLoop price rest
        (upsert acc.1 pdf.filepath (pdf.pages, (pdf.pages : ℚ) * price), acc.2)

/-- make_names_relative applied to the dataframe: the index is relabelled,
the column values are unchanged. -/
def relabelRows (rows : List (List String × Nat × ℚ)) (root : List String) :
    Except PyError (List (String × Nat × ℚ)) :=
  match Utils.make_names_relative (rows.map (fun r => r.1)) root with
  | .error e => .error e
  | .ok labels => .ok (labels.zip (rows.map (fun r => r.2)))

/-- df.sort_values([pages], inplace=True, ascending=False).  pandas sorts
with its default kind (quicksort); the ordering by pages descending is
modelled with an insertion sort — see claim C8 for the tie-order
caveat of that default kind. -/
def sortRows (rows : List (String × Nat × ℚ)) : List (String × Nat × ℚ) :=
  List.insertionSort (fun a b => b.2.1 ≤ a.2.1) rows

/-- The underscore-prefixed create_budget of budget/__init__.py: scan,
price the A4 documents, relabel the index relative to the root, sort by
pages descending, then append the Total row holding the column sums. -/
def createBudget (root : List String) (price : ℚ) (exclude : Option (String → Bool))
    (fs : List FsFile) : Except PyError (List (String × Nat × ℚ) × List PDF) :=
  match Utils.get_pdfs root exclude fs with
  | .error e => .error e
  | .ok pdfs =>
    match budgetLoop price pdfs ([], []) with
    | .error e => .error e
    | .ok (rows, errs) =>
      match relabelRows rows root with
      | .error e => .error e
      | .ok rel =>
        .ok (sortRows rel ++
          [("Total", ((sortRows rel).map (fun r => r.2.1)).sum,
            ((sortRows rel).map (fun r => r.2.2)).sum)], errs)

end Budget

/-! Helper lemmas for the budget builder. -/

theorem upsert_fresh (rows : List (List String × Nat × ℚ)) (key : List String)
    (v : Nat × ℚ) (hf : ∀ r ∈ rows, r.1 ≠ key) :
    Budget.upsert rows key v = rows ++ [(key, v)] := by
  have hany : rows.any (fun r => r.1 == key) = false := by
    rw [List.any_eq_false]
    intro r hr
    simp [hf r hr]
  simp [Budget.upsert, hany]

theorem budgetLoop_ok (price : ℚ) (pdfs : List PDF) :
    ∀ (acc : List (List String × Nat × ℚ) × List PDF)
      (rows : List (List String × Nat × ℚ)) (errs : List PDF),
    (pdfs.map (fun p => p.filepath)).Nodup →
    (∀ p ∈ pdfs, ∀ r ∈ acc.1, r.1 ≠ p.filepath) →
    Budget.budgetLoop price pdfs acc = .ok (rows, errs) →
    rows = acc.1 ++ (pdfs.filter Concat.isA4doc).map
        (fun p => (p.filepath, p.pages, (p.pages : ℚ) * price)) ∧
    errs = acc.2 ++ pdfs.filter (fun p => !Concat.isA4doc p) := by
  induction pdfs with
  | nil =>
    intro acc rows errs _ _ hrun
    simp only [Budget.budgetLoop, Except.ok.injEq] at hrun
    subst hrun
    simp
  | cons p rest ih =>
    intro acc rows errs hnd hfresh hrun
    have hndrest : (rest.map (fun p => p.filepath)).Nodup := by
      simp only [List.map_cons, List.nodup_cons] at hnd
      exact hnd.2
    have hhead : p.filepath ∉ rest.map (fun p => p.filepath) := by
      simp only [List.map_cons, List.nodup_cons] at hnd
      exact hnd.1
    rw [Budget.budgetLoop] at hrun
    cases hg : Core.get_type p.height p.width with
    | error e => rw [hg] at hrun; exact absurd hrun (by simp)
    | ok t =>
      rw [hg] at hrun
      by_cases ht : t = PdfTypes.A4
      · subst ht
        have hA4 : Concat.isA4doc p = true := by
          simp [Concat.isA4doc, hg]
        simp only [ne_eq, not_true_eq_false, if_false, ite_false] at hrun
        have hup : Budget.upsert acc.1 p.filepath (p.pages, (p.pages : ℚ) * price) =
            acc.1 ++ [(p.filepath, p.pages, (p.pages : ℚ) * price)] :=
          upsert_fresh _ _ _ (fun r hr => hfresh p (List.mem_cons_self p rest) r hr)
        rw [hup] at hrun
        have hfresh2 : ∀ q ∈ rest,
            ∀ r ∈ acc.1 ++ [(p.filepath, p.pages, (p.pages : ℚ) * price)],
            r.1 ≠ q.filepath := by
          intro q hq r hr
          rcases List.mem_append.mp hr with hr1 | hr2
          · exact hfresh q (List.mem_cons_of_mem p hq) r hr1
          · have hreq : r = (p.filepath, p.pages, (p.pages : ℚ) * price) := by
              simpa using hr2
            have hr1 : r.1 = p.filepath := by rw [hreq]
            rw [hr1]
            intro hcon
            exact hhead (by rw [hcon]; exact List.mem_map_of_mem (fun p => p.filepath) hq)
        obtain ⟨h1, h2⟩ :=
          ih (acc.1 ++ [(p.filepath, p.pages, (p.pages : ℚ) * price)], acc.2)
            rows errs hndrest hfresh2 hrun
        constructor
        · rw [h1, List.filter_cons, hA4]
          simp [List.append_assoc]
        · rw [h2, List.filter_cons]
          simp [hA4]
      · have hA4 : Concat.isA4doc p = false := by
          simp only [Concat.isA4doc, hg, decide_eq_false_iff_not]
          intro hcon
          exact ht (by injection hcon)
        simp only [ne_eq, ht, not_false_eq_true, if_true, ite_true] at hrun
        have hfresh2 : ∀ q ∈ rest, ∀ r ∈ acc.1, r.1 ≠ q.filepath :=
          fun q hq r hr => hfresh q (List.mem_cons_of_mem p hq) r hr
        obtain ⟨h1, h2⟩ := ih (acc.1, acc.2 ++ [p]) rows errs hndrest hfresh2 hrun
        constructor
        · rw [h1, List.filter_cons, hA4]
          simp
        · rw [h2, List.filter_cons]
          simp [hA4, List.append_assoc]

theorem relLabels_length (root : List String) (ps : List (List String))
    (ls : List String) (h : Utils.relLabels root ps = .ok ls) :
    ls.length = ps.length := by
  induction ps generalizing ls with
  | nil =>
    simp only [Utils.relLabels, Except.ok.injEq] at h
    rw [← h]
    rfl
  | cons p rest ih =>
    rw [Utils.relLabels] at h
    cases hr : Utils.relative_to root p with
    | error e => rw [hr] at h; exact absurd h (by simp)
    | ok r =>
      rw [hr] at h
      cases hl : Utils.relLabels root rest with
      | error e => rw [hl] at h; exact absurd h (by simp)
      | ok ls0 =>
        rw [hl] at h
        simp only [Except.ok.injEq] at h
        rw [← h]
        simp [ih ls0 hl]

theorem make_names_relative_length (index : List (List String)) (root : List String)
    (labels : List String) (h : Utils.make_names_relative index root = .ok labels) :
    labels.length = index.length := by
  rw [Utils.make_names_relative] at h
  split at h
  · simp only [Except.ok.injEq] at h
    rw [← h]
    simp
  · exact relLabels_length root index labels h

theorem relabelRows_snd (rows : List (List String × Nat × ℚ)) (root : List String)
    (rel : List (String × Nat × ℚ)) (h : Budget.relabelRows rows root = .ok rel) :
    rel.map (fun r => r.2) = rows.map (fun r => r.2) := by
  rw [Budget.relabelRows] at h
  cases hm : Utils.make_names_relative (rows.map (fun r => r.1)) root with
  | error e => rw [hm] at h; exact absurd h (by simp)
  | ok labels =>
    rw [hm] at h
    simp only [Except.ok.injEq] at h
    have hlen : (rows.map (fun r => r.2)).length ≤ labels.length := by
      rw [make_names_relative_length _ _ _ hm]
      simp
    rw [← h]
    exact List.map_snd_zip labels (rows.map (fun r => r.2)) hlen

/-- Claim C6 (confirmed): whenever a budget run completes on a scan with
distinct file paths, the report is the priced rows followed by exactly one
Total row; there are as many priced rows as A4-classified documents, every
priced row satisfies price = pages * price_per_sheet, the Total row holds
the column sums of the priced rows, and the non-A4 documents are exactly
the returned error list. -/
theorem claim_C6 (root : List String) (price : ℚ) (exclude : Option (String → Bool))
    (fs : List FsFile) (pdfs : List PDF) (rows : List (String × Nat × ℚ))
    (errs : List PDF)
    (hscan : Utils.get_pdfs root exclude fs = .ok pdfs)
    (hnodup : (pdfs.map (fun p => p.filepath)).Nodup)
    (hrun : Budget.createBudget root price exclude fs = .ok (rows, errs)) :
    ∃ included : List (String × Nat × ℚ),
      rows = included ++
        [("Total", (included.map (fun r => r.2.1)).sum,
          (included.map (fun r => r.2.2)).sum)] ∧
      included.length = (pdfs.filter Concat.isA4doc).length ∧
      (∀ r ∈ included, r.2.2 = (r.2.1 : ℚ) * price) ∧
      errs = pdfs.filter (fun p => !Concat.isA4doc p) := by
  simp only [Budget.createBudget, hscan] at hrun
  cases hloop : Budget.budgetLoop price pdfs ([], []) with
  | error e => simp only [hloop] at hrun; exact absurd hrun (by simp)
  | ok r0 =>
    obtain ⟨rows0, errs0⟩ := r0
    simp only [hloop] at hrun
    cases hrel : Budget.relabelRows rows0 root with
    | error e => simp only [hrel] at hrun; exact absurd hrun (by simp)
    | ok rel =>
      simp only [hrel, Except.ok.injEq, Prod.mk.injEq] at hrun
      obtain ⟨hrows, herrs⟩ := hrun
      obtain ⟨hrows0, herrs0⟩ :=
        budgetLoop_ok price pdfs ([], []) rows0 errs0 hnodup (by simp) hloop
      simp only [List.nil_append] at hrows0 herrs0
      have hperm : (Budget.sortRows rel).Perm rel := List.perm_insertionSort _ rel
      have hsnd : rel.map (fun r => r.2) = rows0.map (fun r => r.2) :=
        relabelRows_snd rows0 root rel hrel
      refine ⟨Budget.sortRows rel, hrows.symm, ?_, ?_, herrs.symm.trans herrs0⟩
      · have h1 : (Budget.sortRows rel).length = rel.length := hperm.length_eq
        have h2 : rel.length = rows0.length := by
          have := congrArg List.length hsnd
          simpa using this
        rw [h1, h2, hrows0]
        simp
      · intro r hr
        have hr2 : r.2 ∈ rel.map (fun r => r.2) :=
          List.mem_map_of_mem _ (hperm.mem_iff.mp hr)
        rw [hsnd, hrows0] at hr2
        simp only [List.map_map, List.mem_map, Function.comp] at hr2
        obtain ⟨p, _, hp⟩ := hr2
        rw [← hp]

/-- Witness for claim C6: a scan containing a single slide document — no
A4 rows, one error, and a Total row of zero pages and zero price. -/
theorem claim_C6_witness :
    Utils.get_pdfs ["r"] none [⟨["r", "s.pdf"], .readable [⟨700, 540⟩]⟩] =
      .ok [⟨["r", "s.pdf"], 1, 19, 24⟩] ∧
    Budget.createBudget ["r"] 3 none [⟨["r", "s.pdf"], .readable [⟨700, 540⟩]⟩] =
      .ok ([("Total", 0, 0)], [⟨["r", "s.pdf"], 1, 19, 24⟩]) ∧
    ∃ included : List (String × Nat × ℚ),
      [(("Total", 0, 0) : String × Nat × ℚ)] = included ++
        [("Total", (included.map (fun r => r.2.1)).sum,
          (included.map (fun r => r.2.2)).sum)] ∧
      included.length =
        (([⟨["r", "s.pdf"], 1, 19, 24⟩] : List PDF).filter Concat.isA4doc).length ∧
      (∀ r ∈ included, r.2.2 = (r.2.1 : ℚ) * 3) ∧
      [(⟨["r", "s.pdf"], 1, 19, 24⟩ : PDF)] =
        ([⟨["r", "s.pdf"], 1, 19, 24⟩] : List PDF).filter
          (fun p => !Concat.isA4doc p) :=
  ⟨by decide, by decide,
   claim_C6 ["r"] 3 none [⟨["r", "s.pdf"], .readable [⟨700, 540⟩]⟩]
     [⟨["r", "s.pdf"], 1, 19, 24⟩] [("Total", 0, 0)] [⟨["r", "s.pdf"], 1, 19, 24⟩]
     (by decide) (by decide) (by decide)⟩

namespace Joinpdf

/- joinpdf.py: scanner -/

/-- PDF construction of joinpdf.py: __post_init__ runs the relaxed
update_pages. -/
def construct (f : FsFile) : Except PyError PDF :=
  match update_pages f.content with
  | .error e => .error e
  | .ok (n, h, w) => .ok ⟨f.path, n, h, w⟩

/-- get_file_list of joinpdf.py: os.walk collects every file under the
path (all extensions), backslashes are normalized to forward slashes, the
optional exclusion is a literal substring test, and the resulting list is
sorted (Python string sort: lexicographic and stable). -/
def get_file_list (root : List String) (exclude : Option String)
    (fs : List FsFile) : List FsFile :=
  match exclude with
  | none =>
      List.insertionSort (fun a b => posixStr a.path ≤ posixStr b.path)
        (fs.filter (fun f => leadsWith root f.path))
  | some pat =>
      List.insertionSort (fun a b => posixStr a.path ≤ posixStr b.path)
        ((fs.filter (fun f => leadsWith root f.path)).filter
          (fun f => !containsSub pat (posixStr f.path)))

/-- The comprehension building PDF instances in order; the first raised
exception propagates. -/
def buildPdfs : List FsFile → Except PyError (List PDF)
  | [] => .ok []
  | f :: rest =>
    match construct f with
    | .error e => .error e
    | .ok p =>
      match buildPdfs rest with
      | .error e => .error e
      | .ok ps => .ok (p :: ps)

/-- get_pdfs of joinpdf.py: drop every path containing test_files or
compact_pdf.pdf, then construct a PDF for each remaining path ending in
.pdf. -/
def get_pdfs (root : List String) (exclude : Option String)
    (fs : List FsFile) : Except PyError (List PDF) :=
  buildPdfs (((get_file_list root exclude fs).filter
    (fun f => !containsSub "test_files" (posixStr f.path) &&
      !containsSub "compact_pdf.pdf" (posixStr f.path))).filter
    (fun f => tailMatch ".pdf" (posixStr f.path)))

end Joinpdf

theorem utils_construct_path (f : FsFile) (p : PDF) (h : Utils.construct f = .ok p) :
    p.filepath = f.path := by
  rw [Utils.construct] at h
  cases hu : Core.update_pages f.content with
  | error e => rw [hu] at h; exact absurd h (by simp)
  | ok r =>
    obtain ⟨n, hh, ww⟩ := r
    rw [hu] at h
    simp only [Except.ok.injEq] at h
    rw [← h]

theorem joinpdf_construct_path (f : FsFile) (p : PDF) (h : Joinpdf.construct f = .ok p) :
    p.filepath = f.path := by
  rw [Joinpdf.construct] at h
  cases hu : Joinpdf.update_pages f.content with
  | error e => rw [hu] at h; exact absurd h (by simp)
  | ok r =>
    obtain ⟨n, hh, ww⟩ := r
    rw [hu] at h
    simp only [Except.ok.injEq] at h
    rw [← h]

theorem utils_buildPdfs_paths (l : List FsFile) (ps : List PDF)
    (h : Utils.buildPdfs l = .ok ps) :
    ps.map (fun p => p.filepath) = l.map (fun f => f.path) := by
  induction l generalizing ps with
  | nil =>
    simp only [Utils.buildPdfs, Except.ok.injEq] at h
    rw [← h]
    rfl
  | cons f rest ih =>
    rw [Utils.buildPdfs] at h
    cases hc : Utils.construct f with
    | error e => rw [hc] at h; exact absurd h (by simp)
    | ok p =>
      rw [hc] at h
      cases hr : Utils.buildPdfs rest with
      | error e => rw [hr] at h; exact absurd h (by simp)
      | ok ps0 =>
        rw [hr] at h
        simp only [Except.ok.injEq] at h
        rw [← h]
        simp [utils_construct_path f p hc, ih ps0 hr]

theorem joinpdf_buildPdfs_paths (l : List FsFile) (ps : List PDF)
    (h : Joinpdf.buildPdfs l = .ok ps) :
    ps.map (fun p => p.filepath) = l.map (fun f => f.path) := by
  induction l generalizing ps with
  | nil =>
    simp only [Joinpdf.buildPdfs, Except.ok.injEq] at h
    rw [← h]
    rfl
  | cons f rest ih =>
    rw [Joinpdf.buildPdfs] at h
    cases hc : Joinpdf.construct f with
    | error e => rw [hc] at h; exact absurd h (by simp)
    | ok p =>
      rw [hc] at h
      cases hr : Joinpdf.buildPdfs rest with
      | error e => rw [hr] at h; exact absurd h (by simp)
      | ok ps0 =>
        rw [hr] at h
        simp only [Except.ok.injEq] at h
        rw [← h]
        simp [joinpdf_construct_path f p hc, ih ps0 hr]

/-- Claim C10 (confirmed): in both scanner variants, no returned document
path contains the literal substring compact_pdf.pdf — the exclusion is by
this fixed default filename only and does not depend on any output name
passed to concat (get_pdfs has no output parameter at all), so a document
saved under a different name, for example myout.pdf, is scanned like any
other pdf. -/
theorem claim_C10 :
    (∀ (root : List String) (exclude : Option (String → Bool)) (fs : List FsFile)
        (pdfs : List PDF), Utils.get_pdfs root exclude fs = .ok pdfs →
        ∀ d ∈ pdfs, containsSub "compact_pdf.pdf" (posixStr d.filepath) = false) ∧
    (∀ (root : List String) (exclude : Option String) (fs : List FsFile)
        (pdfs : List PDF), Joinpdf.get_pdfs root exclude fs = .ok pdfs →
        ∀ d ∈ pdfs, containsSub "compact_pdf.pdf" (posixStr d.filepath) = false) ∧
    Utils.get_pdfs ["r"] none [⟨["r", "myout.pdf"], .readable [⟨595, 842⟩]⟩] =
      .ok [⟨["r", "myout.pdf"], 1, 29, 20⟩] ∧
    Joinpdf.get_pdfs ["r"] none [⟨["r", "myout.pdf"], .readable [⟨595, 842⟩]⟩] =
      .ok [⟨["r", "myout.pdf"], 1, 29, 20⟩] := by
  refine ⟨?_, ?_, by decide, by decide⟩
  · intro root exclude fs pdfs h d hd
    rw [Utils.get_pdfs] at h
    have hpaths := utils_buildPdfs_paths _ _ h
    have hpath : d.filepath ∈ (Utils.candidates root exclude fs).map (fun f => f.path) := by
      rw [← hpaths]
      exact List.mem_map_of_mem _ hd
    obtain ⟨f, hf, hfp⟩ := List.mem_map.mp hpath
    rw [Utils.candidates] at hf
    have hpred := (List.mem_filter.mp hf).2
    rw [← hfp]
    simpa using hpred
  · intro root exclude fs pdfs h d hd
    rw [Joinpdf.get_pdfs] at h
    have hpaths := joinpdf_buildPdfs_paths _ _ h
    have hpath : d.filepath ∈
        (((Joinpdf.get_file_list root exclude fs).filter
          (fun f => !containsSub "test_files" (posixStr f.path) &&
            !containsSub "compact_pdf.pdf" (posixStr f.path))).filter
          (fun f => tailMatch ".pdf" (posixStr f.path))).map (fun f => f.path) := by
      rw [← hpaths]
      exact List.mem_map_of_mem _ hd
    obtain ⟨f, hf, hfp⟩ := List.mem_map.mp hpath
    have hf1 := (List.mem_filter.mp (List.mem_filter.mp hf).1).2
    rw [Bool.and_eq_true] at hf1
    rw [← hfp]
    simpa using hf1.2

/-- Witness for claim C10: a one-document scan; the returned path does not
contain the excluded default output name. -/
theorem claim_C10_witness :
    Utils.get_pdfs ["r"] none [⟨["r", "a.pdf"], .readable [⟨595, 842⟩]⟩] =
      .ok [⟨["r", "a.pdf"], 1, 29, 20⟩] ∧
    containsSub "compact_pdf.pdf" (posixStr (["r", "a.pdf"] : List String)) = false :=
  ⟨by decide,
   claim_C10.1 ["r"] none [⟨["r", "a.pdf"], .readable [⟨595, 842⟩]⟩]
     [⟨["r", "a.pdf"], 1, 29, 20⟩] (by decide) ⟨["r", "a.pdf"], 1, 29, 20⟩ (by decide)⟩

/-- Witness for claim C4 on the two spec example paths. -/
theorem claim_C4_witness :
    2 ≤ ([["a", "b.pdf"], ["c.pdf"]] : List (List String)).length ∧
    Utils.make_names_relative
        ([["a", "b.pdf"], ["c.pdf"]].map (fun r => ["root"] ++ r)) ["root"] =
      .ok ([["a", "b.pdf"], ["c.pdf"]].map (fun r => String.intercalate "/" r)) :=
  ⟨by decide, claim_C4.2 ["root"] [["a", "b.pdf"], ["c.pdf"]] (by decide)⟩

end PdfManager
